import Mathlib

/-!
# z.util.DebugUtil (wire-webapp): a shallow embedding

Source: `src/app/script/util/DebugUtil.js`.

Promises are modelled by their outcome (`Outcome`): resolved with a value,
rejected (a `TypeError` thrown inside a `then` callback), or still pending when
the recursion budget of the model ran out.  Calls into collaborators that live
outside the file (notification service, storage service, cryptobox, user
repository) are recorded in call logs, so that statements about which calls are
made, and in which order, can be stated and proved.  Calls to the logger are
not modelled.
-/

namespace DebugUtil

/-! ## Data model -/

/-- The `data` object of a payload entry; `sender` and `recipient` are read by
destructuring, so either may be `undefined`. -/
structure EventData where
  sender : Option String
  recipient : Option String
  deriving DecidableEq, Repr

/-- One entry of a notification payload, read as `{data, from}`; `data` is
`none` when it is falsy. -/
structure PayloadEntry where
  data : Option EventData
  from_id : Option String
  deriving DecidableEq, Repr

/-- A notification of the stream. -/
structure Notification where
  id : String
  payload : List PayloadEntry
  deriving DecidableEq, Repr

/-- A page `{has_more, notifications}` of the notification stream. -/
structure Page where
  has_more : Bool
  notifications : List Notification
  deriving DecidableEq, Repr

/-- One call `get_notifications(client_id, notification_id_since, size)`. -/
structure Fetch where
  client_id : Option String
  since : Option String
  size : Nat
  deriving DecidableEq, Repr

/-- Outcome of a promise. -/
inductive Outcome (α : Type) where
  | resolved (value : α)
  | rejected
  | pending
  deriving DecidableEq, Repr

/-- A stored record `{created, id, serialised, version}`; the type of the
`serialised` field changes when the blob is converted. -/
structure Record (β : Type) where
  created : Nat
  id : String
  serialised : β
  version : String
  deriving DecidableEq, Repr

/-- The cryptographic session held by a cryptobox session: its
`session_states` map (as an association list) and the rest of its state. -/
structure Session where
  session_tag : String
  session_states : List (String × List Nat)
  deriving DecidableEq, Repr

/-- What `cryptobox.session_load` resolves with. -/
structure CryptoboxSession where
  id : String
  session : Session
  deriving DecidableEq, Repr

/-- One call `storage_service.save(store, key, record)`. -/
structure Save where
  store : String
  key : String
  record : Record (List Nat)
  deriving DecidableEq, Repr

/-- The collaborators reached through `wire.app` and `z`, as far as the file
uses them. `SESSIONS` stands for `z.storage.StorageService.OBJECT_STORE.SESSIONS`,
`now` for the value of `Date.now()`, `load` and `save` for the methods of
`storage_service` (`load` gives `none` when no record can be read),
`session_load` for `cryptobox.session_load` (`none` when the load is rejected),
`serialise` for the method of the session, `array_to_base64` for
`z.util.array_to_base64` and `toLowerCase` for `String.prototype.toLowerCase`. -/
structure App where
  current_client_id : String
  self_id : String
  get_notifications : Option String → Option String → Nat → Page
  load : String → String → Option (Record (List Nat))
  array_to_base64 : List Nat → String
  session_load : String → Option CryptoboxSession
  serialise : Session → List Nat
  SESSIONS : String
  now : Nat
  save : String → String → Record (List Nat) → Outcome Unit
  toLowerCase : String → String

/-- JavaScript truthiness of an optional string argument: `undefined` and the
empty string are falsy. -/
def truthy : Option String → Bool
  | none => false
  | some s => s != ""

/-- String conversion inside a template literal. -/
def template : Option String → String
  | none => "undefined"
  | some s => s

/-- `Promise.all`: rejected as soon as one promise is rejected, otherwise
pending while one is pending, otherwise resolved with the values in order. -/
def Promise_all {α : Type} : List (Outcome α) → Outcome (List α)
  | [] => .resolved []
  | p :: ps =>
    match p with
    | .rejected => .rejected
    | .pending =>
      match Promise_all ps with
      | .rejected => .rejected
      | .pending => .pending
      | .resolved _ => .pending
    | .resolved v =>
      match Promise_all ps with
      | .rejected => .rejected
      | .pending => .pending
      | .resolved vs => .resolved (v :: vs)

/-! ## get_notification_from_stream (lines 94-113) -/

/-- The method `get_notification_from_stream(notification_id, notification_id_since)`;
the first argument bounds the number of fetches the model follows. Returns the
log of fetches and the outcome (`none` is `undefined`). -/
def get_notification_from_stream (app : App) :
    Nat → String → Option String → List Fetch × Outcome (Option Notification)
  | 0, _, _ => ([], .pending)
  | fuel + 1, notification_id, notification_id_since =>
    let client_id := app.current_client_id
    let page := app.get_notifications (some client_id) notification_id_since 10000
    let fetch : Fetch := ⟨some client_id, notification_id_since, 10000⟩
    let matching_notifications := page.notifications.filter (fun notification => notification.id == notification_id)
    match matching_notifications with
    | first :: _ => ([fetch], .resolved (some first))
    | [] =>
      if page.has_more then
        match page.notifications.getLast? with
        | none => ([fetch], .rejected)
        | some last_notification =>
          let rest := get_notification_from_stream app fuel notification_id (some last_notification.id)
          (fetch :: rest.1, rest.2)
      else ([fetch], .resolved none)

/-! ## get_notifications_from_stream (lines 115-164) -/

/-- The body of the filter callback (lines 123-132): the `for ... of` loop over
the payload, returning at the first entry that passes the guard. -/
def payload_matches (local_user_id local_client_id : String)
    (remote_user_id remote_client_id : Option String) : List PayloadEntry → Bool
  | [] => false
  | entry :: rest =>
    match entry.data with
    | some data =>
      if entry.from_id = some local_user_id ∨ entry.from_id = remote_user_id then
        let incoming_event := data.sender = remote_client_id ∧ data.recipient = some local_client_id
        let outgoing_event := data.sender = some local_client_id ∧ data.recipient = remote_client_id
        decide (incoming_event ∨ outgoing_event)
      else payload_matches local_user_id local_client_id remote_user_id remote_client_id rest
    | none => payload_matches local_user_id local_client_id remote_user_id remote_client_id rest

/-- The constant `additional_notifications` (lines 120-133). -/
def additional_notifications (app : App) (remote_user_id remote_client_id : Option String)
    (notifications : List Notification) : List Notification :=
  if !truthy remote_user_id then notifications
  else notifications.filter (fun notification =>
    payload_matches app.self_id app.current_client_id remote_user_id remote_client_id notification.payload)

/-- The constant `client_scope` (line 160). -/
def client_scope (app : App) (remote_user_id : Option String) : Option String :=
  if remote_user_id = some app.self_id then none else some app.current_client_id

/-- The method `get_notifications_from_stream(remote_user_id, remote_client_id,
matching_notifications, notification_id_since)`; the first argument bounds the
number of fetches the model follows. -/
def get_notifications_from_stream (app : App) :
    Nat → Option String → Option String → List Notification → Option String →
    List Fetch × Outcome (List Notification)
  | 0, _, _, _, _ => ([], .pending)
  | fuel + 1, remote_user_id, remote_client_id, matching_notifications, notification_id_since =>
    let scope := client_scope app remote_user_id
    let page := app.get_notifications scope notification_id_since 10000
    let fetch : Fetch := ⟨scope, notification_id_since, 10000⟩
    let matching_notifications :=
      matching_notifications ++ additional_notifications app remote_user_id remote_client_id page.notifications
    if page.has_more then
      match page.notifications.getLast? with
      | none => ([fetch], .rejected)
      | some last_notification =>
        let rest := get_notifications_from_stream app fuel remote_user_id remote_client_id
          matching_notifications (some last_notification.id)
        (fetch :: rest.1, rest.2)
    else ([fetch], .resolved matching_notifications)

/-! ## block_all_connections (lines 33-36) -/

/-- The method `Array.prototype.map` with a callback that acts on a state `σ`:
the callback runs once per element, from left to right. -/
def Array_map {σ α β : Type} (callback : σ → α → σ × β) : σ → List α → σ × List β
  | state, [] => (state, [])
  | state, x :: xs =>
    let step := callback state x
    let rest := Array_map callback step.1 xs
    (rest.1, step.2 :: rest.2)

/-- What a run of `block_all_connections` leaves behind: the state of the user
repository, the arguments of the calls of `block_user` in call order, and the
promise returned. -/
structure BlockRun (σ User β : Type) where
  state : σ
  calls : List User
  result : Outcome (List β)

/-- The method `block_all_connections()`, for the list `users` returned by
`wire.app.repository.user.users()` and the method `block_user` of the user
repository acting on the state `σ` of that repository. -/
def block_all_connections {σ User β : Type} (users : List User)
    (block_user : σ → User → σ × Outcome β) (state : σ) : BlockRun σ User β :=
  let block_users := Array_map
    (fun (acc : σ × List User) user_et =>
      let call := block_user acc.1 user_et
      ((call.1, acc.2 ++ [user_et]), call.2))
    (state, []) users
  ⟨block_users.1.1, block_users.1.2, Promise_all block_users.2⟩

/-! ## break_session (lines 38-59) -/

/-- What a run of `break_session` leaves behind: the calls of
`storage_service.save`, the loaded session object as it is after the run (none
when nothing was loaded) and the promise returned. -/
structure BreakRun where
  saves : List Save
  session : Option Session
  result : Outcome Unit
  deriving DecidableEq, Repr

/-- The method `break_session(user_id, client_id)`. -/
def break_session (app : App) (user_id client_id : String) : BreakRun :=
  let session_id := user_id ++ "@" ++ client_id
  match app.session_load session_id with
  | none => ⟨[], none, .rejected⟩
  | some cryptobox_session =>
    let session : Session := { cryptobox_session.session with session_states := [] }
    let record : Record (List Nat) :=
      { created := app.now, id := session_id, serialised := app.serialise session, version := "broken_by_qa" }
    ⟨[⟨app.SESSIONS, session_id, record⟩], some session, app.save app.SESSIONS session_id record⟩

/-! ## get_serialised_session, get_serialised_identity (lines 80-92) -/

/-- The `then` callback shared by the two methods: the record with its
`serialised` field replaced. -/
def serialised_to_base64 (app : App) (record : Record (List Nat)) : Record String :=
  { created := record.created, id := record.id,
    serialised := app.array_to_base64 record.serialised, version := record.version }

/-- The method `get_serialised_session(session_id)`. -/
def get_serialised_session (app : App) (session_id : String) : Outcome (Record String) :=
  match app.load "sessions" session_id with
  | none => .rejected
  | some record => .resolved (serialised_to_base64 app record)

/-- The method `get_serialised_identity()`. -/
def get_serialised_identity (app : App) : Outcome (Record String) :=
  match app.load "keys" "local_identity" with
  | none => .rejected
  | some record => .resolved (serialised_to_base64 app record)

/-! ## get_objects_for_decryption_errors (lines 166-178) -/

/-- The values that occur in the array `resolve_array`. -/
inductive Value where
  | undefined
  | notification (value : Notification)
  | notifications (values : List Notification)
  | record (value : Record String)
  deriving DecidableEq, Repr

/-- The value of a promise that resolves with a notification or `undefined`. -/
def Value.ofOption : Option Notification → Value
  | none => .undefined
  | some found => Value.notification found

/-- Mapping over the value of a promise (a `then` whose callback cannot throw). -/
def Outcome.map {α β : Type} (f : α → β) : Outcome α → Outcome β
  | .resolved value => .resolved (f value)
  | .rejected => .rejected
  | .pending => .pending

/-- The method `get_objects_for_decryption_errors(session_id, notification_id)`.
`stringify` stands for `JSON.stringify` on an object literal, given as the list
of its keys and values in the order written; the first argument bounds the
number of fetches the model follows. -/
def get_objects_for_decryption_errors (app : App) (stringify : List (String × Value) → String)
    (fuel : Nat) (session_id notification_id : String) : Outcome String :=
  let all := Promise_all [
    (get_notification_from_stream app fuel (app.toLowerCase notification_id) none).2.map Value.ofOption,
    (get_serialised_identity app).map Value.record,
    (get_serialised_session app (app.toLowerCase session_id)).map Value.record]
  match all with
  | .resolved resolve_array =>
    .resolved (stringify [
      ("identity", resolve_array.getD 1 .undefined),
      ("notification", resolve_array.getD 0 .undefined),
      ("session", resolve_array.getD 2 .undefined)])
  | .rejected => .rejected
  | .pending => .pending

/-! ## Streams of pages -/

/-- The cursor chain of a service `get` (the notification service at a fixed
client scope and page size) from the cursor `since`: the pages met when each
next page is fetched from the id of the last notification of the page before,
up to a page with `has_more` false. -/
inductive CursorChain (get : Option String → Page) : Option String → List Page → Prop where
  | last (since : Option String) :
      (get since).has_more = false → CursorChain get since [get since]
  | more (since : Option String) (last_notification : Notification) (pages : List Page) :
      (get since).has_more = true →
      (get since).notifications.getLast? = some last_notification →
      CursorChain get (some last_notification.id) pages →
      CursorChain get since (get since :: pages)

/-- The fetches that walk the pages of a chain: one per page, each of size
10000, the first from `since` and each later one from the id of the last
notification of the page before. -/
def chain_fetches (scope : Option String) : Option String → List Page → List Fetch
  | _, [] => []
  | since, page :: pages =>
    ⟨scope, since, 10000⟩ :: chain_fetches scope (page.notifications.getLast?.map (fun n => n.id)) pages

/-- All notifications of the pages, in stream order. -/
def stream_notifications : List Page → List Notification
  | [] => []
  | page :: pages => page.notifications ++ stream_notifications pages

/-- Whether a page holds a notification with the given id. -/
def has_match (notification_id : String) (page : Page) : Bool :=
  page.notifications.any (fun notification => notification.id == notification_id)

/-- The first notification, in list order, with the given id in the earliest
page that holds one. -/
def first_match (notification_id : String) (pages : List Page) : Option Notification :=
  pages.findSome? (fun page => page.notifications.find? (fun notification => notification.id == notification_id))

/-- An entry with truthy data whose `from` is the local user id or the remote
user id. -/
def qualifies (local_user_id : String) (remote_user_id : Option String) (entry : PayloadEntry) : Bool :=
  entry.data.isSome && (entry.from_id == some local_user_id || entry.from_id == remote_user_id)

/-- Sender and recipient are the remote and the local client, in either
direction. -/
def between_clients (local_client_id : String) (remote_client_id : Option String)
    (entry : PayloadEntry) : Bool :=
  match entry.data with
  | none => false
  | some data =>
    (data.sender == remote_client_id && data.recipient == some local_client_id) ||
    (data.sender == some local_client_id && data.recipient == remote_client_id)

/-- The predicate on notifications in words: the payload has a qualifying
entry, and the first such entry in payload order is between the two clients. -/
def first_qualifying_between (local_user_id local_client_id : String)
    (remote_user_id remote_client_id : Option String) (notification : Notification) : Bool :=
  match notification.payload.find? (qualifies local_user_id remote_user_id) with
  | none => false
  | some entry => between_clients local_client_id remote_client_id entry

/-- Every page with `has_more` true holds at least one notification. -/
def nonempty_when_more (app : App) : Prop :=
  ∀ client since size, (app.get_notifications client since size).has_more = true →
    (app.get_notifications client since size).notifications ≠ []

/-- What `get_notifications_from_stream` adds to `matching_notifications` over
the pages of a stream. -/
def collected (app : App) (remote_user_id remote_client_id : Option String) :
    List Page → List Notification
  | [] => []
  | page :: pages =>
    additional_notifications app remote_user_id remote_client_id page.notifications ++
      collected app remote_user_id remote_client_id pages

/-- The outcomes of calling `block_user` on each user in list order, each call
in the state left by the calls before it. -/
def block_outcomes {σ User β : Type} (block_user : σ → User → σ × Outcome β) :
    σ → List User → List (Outcome β)
  | _, [] => []
  | state, user :: users =>
    (block_user state user).2 :: block_outcomes block_user (block_user state user).1 users

/-! ## Concrete inputs -/

/-- A user repository whose state is the list of blocked users; blocking the
user `bob` is rejected. -/
def example_block_user (blocked : List String) (user : String) : List String × Outcome String :=
  if user = "bob" then (blocked, .rejected) else (blocked ++ [user], .resolved ("blocked " ++ user))

/-- A stand-in for `JSON.stringify` that lists the keys with a mark for the
kind of value. -/
def example_stringify (object : List (String × Value)) : String :=
  String.intercalate "," (object.map (fun field =>
    field.1 ++ ":" ++
      (match field.2 with
        | .undefined => "undefined"
        | .notification found => found.id
        | .notifications found => String.intercalate "+" (found.map (fun n => n.id))
        | .record stored => stored.id ++ "/" ++ stored.serialised)))


/-- A payload entry sent by the remote client `rc` of user `ru` to the local
client `lc`. -/
def incoming_entry : PayloadEntry := ⟨some ⟨some "rc", some "lc"⟩, some "ru"⟩

/-- A payload entry of the remote user between two other clients. -/
def foreign_entry : PayloadEntry := ⟨some ⟨some "xc", some "yc"⟩, some "ru"⟩

/-- A payload entry without data. -/
def empty_entry : PayloadEntry := ⟨none, some "ru"⟩

/-- Four notifications; the last repeats the id of the second. -/
def note_a : Notification := ⟨"a", [empty_entry, incoming_entry, foreign_entry]⟩

def note_b : Notification := ⟨"b", [foreign_entry, incoming_entry]⟩

def note_c : Notification := ⟨"c", []⟩

def note_b2 : Notification := ⟨"b", [incoming_entry]⟩

/-- ASCII lower-casing, standing in for `toLowerCase` on the concrete inputs. -/
def ascii_lower (s : String) : String := String.mk (s.data.map Char.toLower)

/-- An application whose stream has two pages: `[a, b]` with more to come, and
`[c, b2]` after `b`. -/
def example_app : App where
  current_client_id := "lc"
  self_id := "lu"
  get_notifications := fun _ since _ =>
    if since = none then ⟨true, [note_a, note_b]⟩
    else if since = some "b" then ⟨false, [note_c, note_b2]⟩
    else ⟨false, []⟩
  load := fun store key =>
    if store = "sessions" ∧ key = "ru@rc" then some ⟨1, "ru@rc", [1, 2, 3], "v1"⟩
    else if store = "keys" ∧ key = "local_identity" then some ⟨0, "local_identity", [7], "v1"⟩
    else none
  array_to_base64 := fun bytes => String.join (bytes.map toString)
  session_load := fun id =>
    if id = "ru@rc" then some ⟨"ru@rc", ⟨"tag", [("s", [1])]⟩⟩ else none
  serialise := fun session => [session.session_tag.length, session.session_states.length]
  SESSIONS := "sessions"
  now := 42
  save := fun _ _ _ => .resolved ()
  toLowerCase := ascii_lower

/-- An application whose notification service always answers with an empty page
that announces more. -/
def empty_more_app : App :=
  { example_app with get_notifications := fun _ _ _ => ⟨true, []⟩ }

/-! ## Lemmas -/

theorem filter_cons_find {α : Type} (p : α → Bool) (a : α) (t : List α) :
    ∀ l : List α, l.filter p = a :: t → l.find? p = some a ∧ l.any p = true := by
  intro l
  induction l with
  | nil => intro h; simp at h
  | cons x xs ih =>
    intro h
    by_cases hx : p x = true
    · simp [List.filter, hx] at h
      obtain ⟨rfl, _⟩ := h
      simp [List.find?, hx]
    · simp [List.filter, hx] at h
      have := ih h
      simp [List.find?, hx, this.1]
      simpa using this.2

theorem filter_nil_find {α : Type} (p : α → Bool) (l : List α) (h : l.filter p = []) :
    l.find? p = none ∧ l.any p = false := by
  rw [List.filter_eq_nil_iff] at h
  constructor
  · rw [List.find?_eq_none]; exact h
  · rw [List.any_eq_false]; exact h

theorem chain_length_pos {get : Option String → Page} {since : Option String} {pages : List Page}
    (h : CursorChain get since pages) : 0 < pages.length := by
  cases h <;> simp

/-- The run of `get_notification_from_stream` along a cursor chain. -/
theorem notification_run (app : App) (notification_id : String) {since : Option String}
    {pages : List Page}
    (h : CursorChain (fun s => app.get_notifications (some app.current_client_id) s 10000) since pages) :
    ∀ fuel, pages.length ≤ fuel →
      get_notification_from_stream app fuel notification_id since =
        (chain_fetches (some app.current_client_id) since
            (pages.take (pages.findIdx (has_match notification_id) + 1)),
          .resolved (first_match notification_id pages)) := by
  induction h with
  | last since hm =>
    intro fuel hf
    obtain ⟨f, rfl⟩ : ∃ f, fuel = f + 1 := ⟨fuel - 1, by simp at hf; omega⟩
    simp only at hm
    unfold get_notification_from_stream
    simp only
    split
    · rename_i first rest hfil
      have := filter_cons_find _ _ _ _ hfil
      simp [first_match, has_match, List.findIdx_cons, this.1, this.2, chain_fetches]
    · rename_i hfil
      have := filter_nil_find _ _ hfil
      simp [first_match, has_match, List.findIdx_cons, this.1, this.2, chain_fetches, hm]
  | more since last_notification pages hm hl _ ih =>
    intro fuel hf
    obtain ⟨f, rfl⟩ : ∃ f, fuel = f + 1 := ⟨fuel - 1, by simp at hf; omega⟩
    simp only at hm hl
    unfold get_notification_from_stream
    simp only
    split
    · rename_i first rest hfil
      have := filter_cons_find _ _ _ _ hfil
      simp [first_match, has_match, List.findIdx_cons, this.1, this.2, chain_fetches]
    · rename_i hfil
      have := filter_nil_find _ _ hfil
      have ih2 := ih f (by simp at hf; omega)
      simp [first_match, has_match, List.findIdx_cons, this.1, this.2, chain_fetches, hm, hl, ih2]

/-- The run of `get_notifications_from_stream` along a cursor chain. -/
theorem notifications_run (app : App) (remote_user_id remote_client_id : Option String)
    {since : Option String} {pages : List Page}
    (h : CursorChain (fun s => app.get_notifications (client_scope app remote_user_id) s 10000)
      since pages) :
    ∀ fuel matching_notifications, pages.length ≤ fuel →
      get_notifications_from_stream app fuel remote_user_id remote_client_id
          matching_notifications since =
        (chain_fetches (client_scope app remote_user_id) since pages,
          .resolved (matching_notifications ++
            collected app remote_user_id remote_client_id pages)) := by
  induction h with
  | last since hm =>
    intro fuel m hf
    obtain ⟨f, rfl⟩ : ∃ f, fuel = f + 1 := ⟨fuel - 1, by simp at hf; omega⟩
    simp only at hm
    simp [get_notifications_from_stream, hm, chain_fetches, collected]
  | more since last_notification pages hm hl _ ih =>
    intro fuel m hf
    obtain ⟨f, rfl⟩ : ∃ f, fuel = f + 1 := ⟨fuel - 1, by simp at hf; omega⟩
    simp only at hm hl
    have ih2 := ih f (m ++ additional_notifications app remote_user_id remote_client_id
      (app.get_notifications (client_scope app remote_user_id) since 10000).notifications)
      (by simp at hf; omega)
    simp [get_notifications_from_stream, hm, hl, chain_fetches, collected, ih2]

theorem collected_falsy (app : App) (remote_user_id remote_client_id : Option String)
    (h : truthy remote_user_id = false) (pages : List Page) :
    collected app remote_user_id remote_client_id pages = stream_notifications pages := by
  induction pages with
  | nil => rfl
  | cons page pages ih => simp [collected, stream_notifications, additional_notifications, h, ih]

/-- The loop of the filter callback decides as the first qualifying entry does. -/
theorem payload_matches_eq (local_user_id local_client_id : String)
    (remote_user_id remote_client_id : Option String) (notification : Notification) :
    payload_matches local_user_id local_client_id remote_user_id remote_client_id
        notification.payload =
      first_qualifying_between local_user_id local_client_id remote_user_id remote_client_id
        notification := by
  unfold first_qualifying_between
  generalize notification.payload = payload
  induction payload with
  | nil => rfl
  | cons entry rest ih =>
    unfold payload_matches
    cases hd : entry.data with
    | none => simp [List.find?, qualifies, hd, ih]
    | some data =>
      by_cases hfrom : entry.from_id = some local_user_id ∨ entry.from_id = remote_user_id
      · have hq : qualifies local_user_id remote_user_id entry = true := by
          simp only [qualifies, hd]
          simpa using hfrom
        simp only [List.find?, hq, hd, hfrom, between_clients, if_true]
        rw [Bool.eq_iff_iff]
        simp
      · simp only [hfrom, if_false]
        have hq : qualifies local_user_id remote_user_id entry = false := by
          simp only [qualifies, hd]
          simpa using hfrom
        simp [List.find?, hq, ih]

theorem collected_truthy (app : App) (remote_user_id remote_client_id : Option String)
    (h : truthy remote_user_id = true) (pages : List Page) :
    collected app remote_user_id remote_client_id pages =
      (stream_notifications pages).filter
        (first_qualifying_between app.self_id app.current_client_id remote_user_id
          remote_client_id) := by
  induction pages with
  | nil => rfl
  | cons page pages ih =>
    simp only [collected, stream_notifications, additional_notifications, h, List.filter_append, ih]
    congr 1
    simp only [Bool.not_true, Bool.false_eq_true, if_false]
    congr 1
    funext notification
    exact payload_matches_eq _ _ _ _ notification

theorem chain_fetches_length (scope since : Option String) (pages : List Page) :
    (chain_fetches scope since pages).length = pages.length := by
  induction pages generalizing since with
  | nil => rfl
  | cons page pages ih => simp [chain_fetches, ih]

theorem chain_fetches_size (scope since : Option String) (pages : List Page) :
    ∀ fetch ∈ chain_fetches scope since pages, fetch.size = 10000 ∧ fetch.client_id = scope := by
  induction pages generalizing since with
  | nil => simp [chain_fetches]
  | cons page pages ih =>
    intro fetch hfetch
    simp only [chain_fetches, List.mem_cons] at hfetch
    rcases hfetch with rfl | hfetch
    · exact ⟨rfl, rfl⟩
    · exact ih _ fetch hfetch

theorem chain_fetches_since (scope since : Option String) (pages : List Page) :
    ((chain_fetches scope since pages)[0]?).map Fetch.since =
        (pages[0]?).map (fun _ => since) ∧
      ∀ (i : Nat) (page : Page), pages[i]? = some page → i + 1 < pages.length →
        ((chain_fetches scope since pages)[i + 1]?).map Fetch.since =
          some (page.notifications.getLast?.map (fun n => n.id)) := by
  induction pages generalizing since with
  | nil => simp [chain_fetches]
  | cons first rest ih =>
    refine ⟨by simp [chain_fetches], ?_⟩
    intro i page hpage hi
    cases i with
    | zero =>
      simp only [List.getElem?_cons_zero, Option.some.injEq] at hpage
      subst hpage
      cases rest with
      | nil => simp at hi
      | cons second others => simp [chain_fetches]
    | succ j =>
      simp only [List.getElem?_cons_succ] at hpage
      simp only [chain_fetches, List.getElem?_cons_succ]
      exact (ih _).2 j page hpage (by simpa using hi)

theorem notification_never_rejected (app : App) (h : nonempty_when_more app) :
    ∀ (fuel : Nat) (notification_id : String) (since : Option String),
      (get_notification_from_stream app fuel notification_id since).2 ≠ .rejected := by
  intro fuel
  induction fuel with
  | zero => intro _ _; simp [get_notification_from_stream]
  | succ fuel ih =>
    intro notification_id since
    unfold get_notification_from_stream
    simp only
    split
    · simp
    · split
      · rename_i hmore
        split
        · rename_i hlast
          exact absurd (List.getLast?_eq_none_iff.mp hlast) (h _ _ _ hmore)
        · exact ih _ _
      · simp

theorem notifications_never_rejected (app : App) (h : nonempty_when_more app) :
    ∀ (fuel : Nat) (remote_user_id remote_client_id : Option String)
      (matching_notifications : List Notification) (since : Option String),
      (get_notifications_from_stream app fuel remote_user_id remote_client_id
        matching_notifications since).2 ≠ .rejected := by
  intro fuel
  induction fuel with
  | zero => intro _ _ _ _; simp [get_notifications_from_stream]
  | succ fuel ih =>
    intro remote_user_id remote_client_id matching_notifications since
    unfold get_notifications_from_stream
    simp only
    split
    · rename_i hmore
      split
      · rename_i hlast
        exact absurd (List.getLast?_eq_none_iff.mp hlast) (h _ _ _ hmore)
      · exact ih _ _ _ _
    · simp

theorem notification_fetch_client (app : App) :
    ∀ (fuel : Nat) (notification_id : String) (since : Option String),
      ∀ fetch ∈ (get_notification_from_stream app fuel notification_id since).1,
        fetch.client_id = some app.current_client_id := by
  intro fuel
  induction fuel with
  | zero => intro _ _; simp [get_notification_from_stream]
  | succ fuel ih =>
    intro notification_id since fetch
    unfold get_notification_from_stream
    simp only
    split
    · intro hf; simp at hf; rw [hf]
    · split
      · split
        · intro hf; simp at hf; rw [hf]
        · intro hf
          simp only [List.mem_cons] at hf
          rcases hf with rfl | hf
          · rfl
          · exact ih _ _ fetch hf
      · intro hf; simp at hf; rw [hf]

theorem notifications_fetch_client (app : App) (remote_user_id remote_client_id : Option String) :
    ∀ (fuel : Nat) (matching_notifications : List Notification) (since : Option String),
      ∀ fetch ∈ (get_notifications_from_stream app fuel remote_user_id remote_client_id
          matching_notifications since).1,
        fetch.client_id = client_scope app remote_user_id := by
  intro fuel
  induction fuel with
  | zero => intro _ _; simp [get_notifications_from_stream]
  | succ fuel ih =>
    intro matching_notifications since fetch
    unfold get_notifications_from_stream
    simp only
    split
    · split
      · intro hf; simp at hf; rw [hf]
      · intro hf
        simp only [List.mem_cons] at hf
        rcases hf with rfl | hf
        · rfl
        · exact ih _ _ fetch hf
    · intro hf; simp at hf; rw [hf]

theorem Array_map_block {σ User β : Type} (block_user : σ → User → σ × Outcome β) :
    ∀ (users : List User) (state : σ) (log : List User),
      Array_map (fun (acc : σ × List User) user_et =>
          let call := block_user acc.1 user_et
          ((call.1, acc.2 ++ [user_et]), call.2)) (state, log) users =
        ((users.foldl (fun s u => (block_user s u).1) state, log ++ users),
          block_outcomes block_user state users) := by
  intro users
  induction users with
  | nil => intro state log; simp [Array_map, block_outcomes]
  | cons user users ih =>
    intro state log
    simp [Array_map, block_outcomes, ih]

theorem block_outcomes_length {σ User β : Type} (block_user : σ → User → σ × Outcome β) :
    ∀ (users : List User) (state : σ), (block_outcomes block_user state users).length = users.length := by
  intro users
  induction users with
  | nil => intro _; rfl
  | cons user users ih => intro state; simp [block_outcomes, ih]

theorem block_outcomes_get {σ User β : Type} (block_user : σ → User → σ × Outcome β) :
    ∀ (users : List User) (state : σ) (i : Nat) (hi : i < users.length),
      (block_outcomes block_user state users)[i]? =
        some (block_user ((users.take i).foldl (fun s u => (block_user s u).1) state) users[i]).2 := by
  intro users
  induction users with
  | nil => intro _ i hi; simp at hi
  | cons user users ih =>
    intro state i hi
    cases i with
    | zero => simp [block_outcomes]
    | succ j =>
      simp only [block_outcomes, List.getElem?_cons_succ, List.take_succ_cons, List.foldl_cons,
        List.getElem_cons_succ]
      exact ih _ j (by simpa using hi)

theorem Promise_all_resolved {α : Type} :
    ∀ (promises : List (Outcome α)) (values : List α),
      Promise_all promises = .resolved values → promises = values.map Outcome.resolved := by
  intro promises
  induction promises with
  | nil =>
    intro values h
    simp only [Promise_all, Outcome.resolved.injEq] at h
    subst h
    rfl
  | cons p ps ih =>
    intro values h
    cases p with
    | rejected => simp [Promise_all] at h
    | pending =>
      simp only [Promise_all] at h
      split at h <;> simp at h
    | resolved v =>
      simp only [Promise_all] at h
      split at h <;> try (simp at h)
      rename_i vs hps
      subst h
      rw [ih vs hps]
      rfl

/-- In a cursor chain `has_more` is true on every page but the last. -/
theorem chain_has_more {get : Option String → Page} {since : Option String} {pages : List Page}
    (h : CursorChain get since pages) :
    ∀ (i : Nat) (page : Page), pages[i]? = some page →
      (page.has_more = true ↔ i + 1 < pages.length) := by
  induction h with
  | last since hm =>
    intro i page hpage
    cases i with
    | zero =>
      simp only [List.getElem?_cons_zero, Option.some.injEq] at hpage
      subst hpage
      simp [hm]
    | succ j => simp at hpage
  | more since last_notification pages hm hl hrest ih =>
    intro i page hpage
    cases i with
    | zero =>
      simp only [List.getElem?_cons_zero, Option.some.injEq] at hpage
      subst hpage
      have := chain_length_pos hrest
      simp [hm, this]
    | succ j =>
      simp only [List.getElem?_cons_succ] at hpage
      simpa using ih j page hpage

/-! ## The notification stream: searching for one notification -/

/-- Claim C1: along a finite cursor chain from `notification_id_since`,
`get_notification_from_stream` resolves with the first notification, in list
order, whose id is `notification_id` in the earliest page of the chain that
holds one (whatever the `has_more` of that page), its fetches are those of the
pages up to that page and of no later page, and it resolves with `undefined`
when no page of the chain holds such a notification. -/
theorem get_notification_from_stream_first_match (app : App) (notification_id : String)
    (notification_id_since : Option String) (pages : List Page) (fuel : Nat)
    (hchain : CursorChain (fun s => app.get_notifications (some app.current_client_id) s 10000)
      notification_id_since pages)
    (hfuel : pages.length ≤ fuel) :
    (get_notification_from_stream app fuel notification_id notification_id_since).2 =
        .resolved (first_match notification_id pages) ∧
      (get_notification_from_stream app fuel notification_id notification_id_since).1 =
        chain_fetches (some app.current_client_id) notification_id_since
          (pages.take (pages.findIdx (has_match notification_id) + 1)) ∧
      ((∀ page ∈ pages, ∀ notification ∈ page.notifications, notification.id ≠ notification_id) →
        (get_notification_from_stream app fuel notification_id notification_id_since).2 =
          .resolved none) := by
  have hrun := notification_run app notification_id hchain fuel hfuel
  refine ⟨by rw [hrun], by rw [hrun], ?_⟩
  intro hnone
  rw [hrun]
  simp only [first_match, Outcome.resolved.injEq, List.findSome?_eq_none_iff, List.find?_eq_none]
  intro page hpage notification hn
  simpa using hnone page hpage notification hn

/-- The two pages of the stream of `example_app` form a cursor chain. -/
theorem example_chain (scope : Option String) :
    CursorChain (fun s => example_app.get_notifications scope s 10000) none
      [⟨true, [note_a, note_b]⟩, ⟨false, [note_c, note_b2]⟩] :=
  CursorChain.more none note_b _ rfl rfl (CursorChain.last (some "b") rfl)

/-- Witness of C1: in the stream `[a, b]`, `[c, b2]` the search for `b` stops
at the first page. -/
theorem get_notification_from_stream_first_match_witness :
    CursorChain (fun s => example_app.get_notifications (some example_app.current_client_id) s 10000)
        none [⟨true, [note_a, note_b]⟩, ⟨false, [note_c, note_b2]⟩] ∧
      (get_notification_from_stream example_app 2 "b" none).2 = .resolved (some note_b) ∧
      (get_notification_from_stream example_app 2 "b" none).1 = [⟨some "lc", none, 10000⟩] :=
  have h := get_notification_from_stream_first_match example_app "b" none
    [⟨true, [note_a, note_b]⟩, ⟨false, [note_c, note_b2]⟩] 2 (example_chain _) (by decide)
  ⟨example_chain _, h.1.trans (by decide), h.2.1.trans (by decide)⟩

/-! ## The notification stream: collecting notifications -/

/-- Claim C2: with a falsy `remote_user_id`, along a finite stream of pages
(`has_more` true on every page but the last, each next page fetched from the id
of the last notification of the page before) `get_notifications_from_stream`
resolves with the initial `matching_notifications` followed by the notifications
of every page, in stream order. -/
theorem get_notifications_from_stream_falsy (app : App)
    (remote_user_id remote_client_id : Option String) (matching_notifications : List Notification)
    (notification_id_since : Option String) (pages : List Page) (fuel : Nat)
    (hfalsy : truthy remote_user_id = false)
    (hchain : CursorChain (fun s => app.get_notifications (client_scope app remote_user_id) s 10000)
      notification_id_since pages)
    (hfuel : pages.length ≤ fuel) :
    (get_notifications_from_stream app fuel remote_user_id remote_client_id
        matching_notifications notification_id_since).2 =
      .resolved (matching_notifications ++ stream_notifications pages) ∧
    ∀ (i : Nat) (page : Page), pages[i]? = some page →
      (page.has_more = true ↔ i + 1 < pages.length) := by
  refine ⟨?_, chain_has_more hchain⟩
  rw [notifications_run app remote_user_id remote_client_id hchain fuel matching_notifications hfuel,
    collected_falsy app remote_user_id remote_client_id hfalsy]

/-- Witness of C2: the stream `[a, b]`, `[c, b2]` read after the initial list
`[c]`, with `remote_user_id` undefined. -/
theorem get_notifications_from_stream_falsy_witness :
    truthy none = false ∧
      (get_notifications_from_stream example_app 2 none none [note_c] none).2 =
        .resolved [note_c, note_a, note_b, note_c, note_b2] :=
  ⟨rfl, (get_notifications_from_stream_falsy example_app none none [note_c] none
    [⟨true, [note_a, note_b]⟩, ⟨false, [note_c, note_b2]⟩] 2 rfl (example_chain _)
    (by decide)).1.trans (by decide)⟩

/-- Claim C3: with a truthy `remote_user_id`, `get_notifications_from_stream`
resolves with the initial `matching_notifications` followed by exactly those
notifications of the pages, in stream order, whose payload has an entry with
truthy data and `from` the local or the remote user id, and whose first such
entry is between the remote and the local client (in either direction); the
entries after the first qualifying one do not change the decision. -/
theorem get_notifications_from_stream_truthy (app : App)
    (remote_user_id remote_client_id : Option String) (matching_notifications : List Notification)
    (notification_id_since : Option String) (pages : List Page) (fuel : Nat)
    (htruthy : truthy remote_user_id = true)
    (hchain : CursorChain (fun s => app.get_notifications (client_scope app remote_user_id) s 10000)
      notification_id_since pages)
    (hfuel : pages.length ≤ fuel) :
    (get_notifications_from_stream app fuel remote_user_id remote_client_id
        matching_notifications notification_id_since).2 =
      .resolved (matching_notifications ++ (stream_notifications pages).filter
        (first_qualifying_between app.self_id app.current_client_id remote_user_id
          remote_client_id)) ∧
    ∀ (before after : List PayloadEntry) (entry : PayloadEntry),
      (∀ earlier ∈ before, qualifies app.self_id remote_user_id earlier = false) →
      qualifies app.self_id remote_user_id entry = true →
      payload_matches app.self_id app.current_client_id remote_user_id remote_client_id
          (before ++ entry :: after) =
        between_clients app.current_client_id remote_client_id entry := by
  constructor
  · rw [notifications_run app remote_user_id remote_client_id hchain fuel matching_notifications
      hfuel, collected_truthy app remote_user_id remote_client_id htruthy]
  · intro before after entry hbefore hentry
    have h := payload_matches_eq app.self_id app.current_client_id remote_user_id remote_client_id
      ⟨"", before ++ entry :: after⟩
    rw [h]
    unfold first_qualifying_between
    have hfind : List.find? (qualifies app.self_id remote_user_id) (before ++ entry :: after) =
        some entry := by
      rw [List.find?_append]
      have : List.find? (qualifies app.self_id remote_user_id) before = none := by
        rw [List.find?_eq_none]
        intro x hx
        simp [hbefore x hx]
      simp [this, List.find?, hentry]
    simp only [hfind]

/-- Witness of C3: for the remote user `ru` with client `rc`, notification `a`
(its first qualifying entry is incoming) and `b2` are kept, `b` (its first
qualifying entry is between other clients) and `c` (no entry) are dropped. -/
theorem get_notifications_from_stream_truthy_witness :
    truthy (some "ru") = true ∧
      (get_notifications_from_stream example_app 2 (some "ru") (some "rc") [note_c] none).2 =
        .resolved [note_c, note_a, note_b2] :=
  ⟨by decide, (get_notifications_from_stream_truthy example_app (some "ru") (some "rc") [note_c]
    none [⟨true, [note_a, note_b]⟩, ⟨false, [note_c, note_b2]⟩] 2 (by decide) (example_chain _)
    (by decide)).1.trans (by decide)⟩

/-! ## The cursor of the next fetch -/

/-- Claim C8: when every page with `has_more` true holds at least one
notification, neither method is ever rejected (the lookup of the last
notification is defined whenever it is made); and the condition is needed: on
a service whose page has `has_more` true and no notification, both methods are
rejected. -/
theorem last_notification_lookup :
    (∀ app : App, nonempty_when_more app →
      ∀ (fuel : Nat) (notification_id : String) (remote_user_id remote_client_id : Option String)
        (matching_notifications : List Notification) (since : Option String),
        (get_notification_from_stream app fuel notification_id since).2 ≠ .rejected ∧
        (get_notifications_from_stream app fuel remote_user_id remote_client_id
          matching_notifications since).2 ≠ .rejected) ∧
    ∃ app : App,
      (app.get_notifications (some app.current_client_id) none 10000).has_more = true ∧
      (app.get_notifications (some app.current_client_id) none 10000).notifications = [] ∧
      ∀ (fuel : Nat) (notification_id : String) (remote_client_id : Option String)
        (matching_notifications : List Notification),
        (get_notification_from_stream app (fuel + 1) notification_id none).2 = .rejected ∧
        (get_notifications_from_stream app (fuel + 1) none remote_client_id
          matching_notifications none).2 = .rejected := by
  refine ⟨fun app h fuel notification_id remote_user_id remote_client_id matching since =>
    ⟨notification_never_rejected app h fuel notification_id since,
      notifications_never_rejected app h fuel remote_user_id remote_client_id matching since⟩,
    empty_more_app, rfl, rfl, ?_⟩
  intro fuel notification_id remote_client_id matching
  constructor
  · simp [get_notification_from_stream, empty_more_app]
  · simp [get_notifications_from_stream, empty_more_app]

/-- Every page of `example_app` with `has_more` true holds a notification. -/
theorem example_nonempty_when_more : nonempty_when_more example_app := by
  intro client since size
  simp only [example_app]
  split_ifs <;> simp

/-- Witness of C8: on `example_app` the search for an absent id is not
rejected, on `empty_more_app` it is. -/
theorem last_notification_lookup_witness :
    nonempty_when_more example_app ∧
      (get_notification_from_stream example_app 2 "z" none).2 ≠ .rejected ∧
      (get_notifications_from_stream example_app 2 none none [] none).2 ≠ .rejected :=
  ⟨example_nonempty_when_more,
    last_notification_lookup.1 example_app example_nonempty_when_more 2 "z" none none [] none⟩

/-! ## Number and arguments of the fetches -/

/-- Claim C9: along a cursor chain of `k` pages, `get_notifications_from_stream`
resolves after exactly `k` fetches, one per page, each of size 10000, the first
from `notification_id_since` and each later one from the id of the last
notification of the page before; `get_notification_from_stream` resolves after at
most `k` fetches along a chain of `k` pages. -/
theorem fetches_along_chain (app : App) (remote_user_id remote_client_id : Option String)
    (matching_notifications : List Notification) (notification_id : String)
    (since since1 : Option String) (pages pages1 : List Page) (fuel fuel1 : Nat)
    (hchain : CursorChain (fun s => app.get_notifications (client_scope app remote_user_id) s 10000)
      since pages)
    (hfuel : pages.length ≤ fuel)
    (hchain1 : CursorChain (fun s => app.get_notifications (some app.current_client_id) s 10000)
      since1 pages1)
    (hfuel1 : pages1.length ≤ fuel1) :
    ((∃ result, (get_notifications_from_stream app fuel remote_user_id remote_client_id
          matching_notifications since).2 = .resolved result) ∧
      (get_notifications_from_stream app fuel remote_user_id remote_client_id
          matching_notifications since).1.length = pages.length ∧
      (∀ fetch ∈ (get_notifications_from_stream app fuel remote_user_id remote_client_id
          matching_notifications since).1, fetch.size = 10000) ∧
      ((get_notifications_from_stream app fuel remote_user_id remote_client_id
          matching_notifications since).1[0]?).map Fetch.since = some since ∧
      (∀ (i : Nat) (page : Page), pages[i]? = some page → i + 1 < pages.length →
        ((get_notifications_from_stream app fuel remote_user_id remote_client_id
          matching_notifications since).1[i + 1]?).map Fetch.since =
            some (page.notifications.getLast?.map (fun n => n.id)))) ∧
    ((∃ result, (get_notification_from_stream app fuel1 notification_id since1).2 =
          .resolved result) ∧
      (get_notification_from_stream app fuel1 notification_id since1).1.length ≤ pages1.length ∧
      (∀ fetch ∈ (get_notification_from_stream app fuel1 notification_id since1).1,
        fetch.size = 10000)) := by
  have hrun := notifications_run app remote_user_id remote_client_id hchain fuel
    matching_notifications hfuel
  have hrun1 := notification_run app notification_id hchain1 fuel1 hfuel1
  rw [hrun, hrun1]
  refine ⟨⟨⟨_, rfl⟩, chain_fetches_length _ _ _, fun f hf => (chain_fetches_size _ _ _ f hf).1,
    ?_, (chain_fetches_since _ _ _).2⟩, ⟨_, rfl⟩, ?_, fun f hf => (chain_fetches_size _ _ _ f hf).1⟩
  · have hpos := chain_length_pos hchain
    rw [(chain_fetches_since _ _ _).1]
    cases pages with
    | nil => simp at hpos
    | cons page rest => simp
  · simp only [chain_fetches_length, List.length_take]
    omega

/-- Witness of C9: on the two pages of `example_app` the collection makes the
two fetches from `undefined` and from `b`, and the search for `c` makes two. -/
theorem fetches_along_chain_witness :
    (get_notifications_from_stream example_app 5 none none [] none).1 =
        [⟨some "lc", none, 10000⟩, ⟨some "lc", some "b", 10000⟩] ∧
      (get_notifications_from_stream example_app 5 none none [] none).1.length = 2 ∧
      (get_notification_from_stream example_app 5 "c" none).1.length ≤ 2 :=
  have h := fetches_along_chain example_app none none [] "c" none none
    [⟨true, [note_a, note_b]⟩, ⟨false, [note_c, note_b2]⟩]
    [⟨true, [note_a, note_b]⟩, ⟨false, [note_c, note_b2]⟩] 5 5
    (example_chain _) (by decide) (example_chain _) (by decide)
  ⟨by decide, h.1.2.1, h.2.2.1⟩

/-! ## The client scope of the fetches -/

/-- Claim C10: the client scope of `get_notifications_from_stream` is
`undefined` exactly when `remote_user_id` is the id of the local user and the id
of the local client otherwise, every fetch of one search uses that scope, and
every fetch of `get_notification_from_stream` uses the id of the local client. -/
theorem client_scope_of_fetches (app : App) (fuel : Nat)
    (remote_user_id remote_client_id : Option String) (matching_notifications : List Notification)
    (notification_id : String) (since : Option String) :
    (client_scope app remote_user_id = none ↔ remote_user_id = some app.self_id) ∧
    (remote_user_id ≠ some app.self_id →
      client_scope app remote_user_id = some app.current_client_id) ∧
    (∀ fetch ∈ (get_notifications_from_stream app fuel remote_user_id remote_client_id
        matching_notifications since).1, fetch.client_id = client_scope app remote_user_id) ∧
    (∀ fetch ∈ (get_notification_from_stream app fuel notification_id since).1,
      fetch.client_id = some app.current_client_id) := by
  refine ⟨?_, ?_, notifications_fetch_client app remote_user_id remote_client_id fuel
    matching_notifications since, notification_fetch_client app fuel notification_id since⟩
  · unfold client_scope
    split_ifs with h <;> simp [h]
  · intro h
    simp [client_scope, h]

/-- Witness of C10: with `remote_user_id` undefined the scope is the local
client, with the local user's id it is `undefined`. -/
theorem client_scope_of_fetches_witness :
    client_scope example_app none = some "lc" ∧ client_scope example_app (some "lu") = none :=
  ⟨(client_scope_of_fetches example_app 2 none none [] "a" none).2.1 (by decide),
    (client_scope_of_fetches example_app 2 (some "lu") none [] "a" none).1.mpr rfl⟩

/-! ## Blocking all connections -/

/-- Claim C7: for every list of users, `block_all_connections` calls
`block_user` once on each user of the list, in list order, and on nothing else;
the promise returned is `Promise.all` of one outcome of `block_user` per user,
in the same order, so a resolved result has the length of the user list, and
the result for the empty list is the empty array. -/
theorem block_all_connections_calls {σ User β : Type} (users : List User)
    (block_user : σ → User → σ × Outcome β) (state : σ) :
    (block_all_connections users block_user state).calls = users ∧
    (block_all_connections users block_user state).result =
      Promise_all (block_outcomes block_user state users) ∧
    (block_outcomes block_user state users).length = users.length ∧
    (∀ (i : Nat) (hi : i < users.length),
      (block_outcomes block_user state users)[i]? =
        some (block_user ((users.take i).foldl (fun s u => (block_user s u).1) state) users[i]).2) ∧
    (∀ values : List β, (block_all_connections users block_user state).result = .resolved values →
      values.length = users.length ∧
      block_outcomes block_user state users = values.map Outcome.resolved) ∧
    (users = [] → (block_all_connections users block_user state).result = .resolved []) := by
  have hrun := Array_map_block block_user users state []
  have hresult : (block_all_connections users block_user state).result =
      Promise_all (block_outcomes block_user state users) := by
    simp only [block_all_connections]
    rw [hrun]
  refine ⟨?_, hresult, block_outcomes_length block_user users state,
    block_outcomes_get block_user users state, ?_, ?_⟩
  · simp only [block_all_connections]
    rw [hrun]
    simp
  · intro values hvalues
    rw [hresult] at hvalues
    have hmap := Promise_all_resolved _ _ hvalues
    refine ⟨?_, hmap⟩
    have hlen := block_outcomes_length block_user users state
    rw [hmap] at hlen
    simpa using hlen
  · intro hnil
    subst hnil
    rw [hresult]
    rfl

/-- Witness of C7: blocking `alice` and `carol`, and the empty list. -/
theorem block_all_connections_calls_witness :
    (block_all_connections ["alice", "carol"] example_block_user []).calls = ["alice", "carol"] ∧
      (block_all_connections ["alice", "carol"] example_block_user []).result =
        .resolved ["blocked alice", "blocked carol"] ∧
      (block_all_connections ([] : List String) example_block_user []).result = .resolved [] :=
  ⟨(block_all_connections_calls ["alice", "carol"] example_block_user []).1,
    by decide,
    (block_all_connections_calls ([] : List String) example_block_user []).2.2.2.2.2 rfl⟩

/-! ## Breaking a session -/

/-- Claim C4: when the session `user_id@client_id` loads, `break_session`
empties the `session_states` of the loaded session and makes exactly one call of
`save`, on the SESSIONS store under the key `user_id@client_id`, with a record
whose id is that key, whose version is `broken_by_qa` and whose `serialised`
is the serialisation of the session with its `session_states` emptied. -/
theorem break_session_saves (app : App) (user_id client_id : String)
    (cryptobox_session : CryptoboxSession)
    (hload : app.session_load (user_id ++ "@" ++ client_id) = some cryptobox_session) :
    (break_session app user_id client_id).session =
        some ⟨cryptobox_session.session.session_tag, []⟩ ∧
    (break_session app user_id client_id).saves =
      [⟨app.SESSIONS, user_id ++ "@" ++ client_id,
        ⟨app.now, user_id ++ "@" ++ client_id,
          app.serialise ⟨cryptobox_session.session.session_tag, []⟩, "broken_by_qa"⟩⟩] ∧
    (break_session app user_id client_id).saves.length = 1 ∧
    (∀ call ∈ (break_session app user_id client_id).saves,
      call.store = app.SESSIONS ∧ call.key = user_id ++ "@" ++ client_id ∧
      call.record.id = user_id ++ "@" ++ client_id ∧ call.record.version = "broken_by_qa" ∧
      ∃ emptied : Session, (break_session app user_id client_id).session = some emptied ∧
        emptied.session_states = [] ∧ call.record.serialised = app.serialise emptied) := by
  simp [break_session, hload]

/-- Witness of C4: breaking the session `ru@rc` of `example_app`. -/
theorem break_session_saves_witness :
    example_app.session_load ("ru" ++ "@" ++ "rc") = some ⟨"ru@rc", ⟨"tag", [("s", [1])]⟩⟩ ∧
      (break_session example_app "ru" "rc").saves =
        [⟨"sessions", "ru@rc", ⟨42, "ru@rc", [3, 0], "broken_by_qa"⟩⟩] :=
  ⟨by decide, (break_session_saves example_app "ru" "rc" ⟨"ru@rc", ⟨"tag", [("s", [1])]⟩⟩
    (by decide)).2.1.trans (by decide)⟩

/-! ## Serialised session and identity -/

/-- Claim C6: `get_serialised_session(session_id)` reads the record under
`session_id` in the store `sessions`, `get_serialised_identity()` the record
under `local_identity` in the store `keys`; each resolves with a record equal to
the stored one in every field but `serialised`, which is
`z.util.array_to_base64` of the stored `serialised`. -/
theorem get_serialised_record (app : App) (session_id : String)
    (session_record identity_record : Record (List Nat))
    (hsession : app.load "sessions" session_id = some session_record)
    (hidentity : app.load "keys" "local_identity" = some identity_record) :
    (∃ returned : Record String, get_serialised_session app session_id = .resolved returned ∧
      returned.created = session_record.created ∧ returned.id = session_record.id ∧
      returned.version = session_record.version ∧
      returned.serialised = app.array_to_base64 session_record.serialised) ∧
    (∃ returned : Record String, get_serialised_identity app = .resolved returned ∧
      returned.created = identity_record.created ∧ returned.id = identity_record.id ∧
      returned.version = identity_record.version ∧
      returned.serialised = app.array_to_base64 identity_record.serialised) := by
  simp [get_serialised_session, get_serialised_identity, hsession, hidentity, serialised_to_base64]

/-- Witness of C6: the records of `example_app`. -/
theorem get_serialised_record_witness :
    example_app.load "sessions" "ru@rc" = some ⟨1, "ru@rc", [1, 2, 3], "v1"⟩ ∧
      example_app.load "keys" "local_identity" = some ⟨0, "local_identity", [7], "v1"⟩ ∧
      (∃ returned : Record String,
        get_serialised_session example_app "ru@rc" = .resolved returned ∧
        returned.created = 1 ∧ returned.id = "ru@rc" ∧ returned.version = "v1" ∧
        returned.serialised = example_app.array_to_base64 [1, 2, 3]) :=
  ⟨by decide, by decide,
    (get_serialised_record example_app "ru@rc" ⟨1, "ru@rc", [1, 2, 3], "v1"⟩
      ⟨0, "local_identity", [7], "v1"⟩ (by decide) (by decide)).1⟩

/-! ## Objects for decryption errors -/

/-- Claim C5: when the three queries resolve, `get_objects_for_decryption_errors`
resolves with `JSON.stringify` of the object whose `identity` is the result of
`get_serialised_identity`, whose `notification` is the result of
`get_notification_from_stream` for the lower-cased `notification_id` without a
since-id, and whose `session` is the result of `get_serialised_session` for the
lower-cased `session_id`. -/
theorem get_objects_for_decryption_errors_fields (app : App)
    (stringify : List (String × Value) → String) (fuel : Nat) (session_id notification_id : String)
    (notification : Option Notification) (identity session : Record String)
    (hnotification : (get_notification_from_stream app fuel (app.toLowerCase notification_id)
      none).2 = .resolved notification)
    (hidentity : get_serialised_identity app = .resolved identity)
    (hsession : get_serialised_session app (app.toLowerCase session_id) = .resolved session) :
    get_objects_for_decryption_errors app stringify fuel session_id notification_id =
      .resolved (stringify [("identity", Value.record identity),
        ("notification", Value.ofOption notification),
        ("session", Value.record session)]) := by
  simp [get_objects_for_decryption_errors, hnotification, hidentity, hsession, Promise_all,
    Outcome.map]

/-- Witness of C5: the objects for the session `RU@RC` and the notification
`C` of `example_app`. -/
theorem get_objects_for_decryption_errors_fields_witness :
    (get_notification_from_stream example_app 2 (example_app.toLowerCase "C") none).2 =
        .resolved (some note_c) ∧
      get_objects_for_decryption_errors example_app example_stringify 2 "RU@RC" "C" =
        .resolved (example_stringify [("identity", Value.record ⟨0, "local_identity", "7", "v1"⟩),
          ("notification", Value.notification note_c),
          ("session", Value.record ⟨1, "ru@rc", "123", "v1"⟩)]) :=
  ⟨by decide, get_objects_for_decryption_errors_fields example_app example_stringify 2 "RU@RC" "C"
    (some note_c) ⟨0, "local_identity", "7", "v1"⟩ ⟨1, "ru@rc", "123", "v1"⟩
    (by decide) (by decide) (by decide)⟩

end DebugUtil
